import Mathlib

/-!
Verification development for the vanity Ethereum address bot (`bot.py`).

Python strings are modelled as lists of characters (`PyStr`).  The
brute-force search loop `generate_wallet` is modelled with explicit fuel
(the number of loop iterations available) over an abstract stream of
freshly created accounts, since `Account.create()` draws from an external
randomness source.  The `/generate` command handler's input validation is
modelled as a function from the two raw arguments to an outcome that is
either one of the three validation-error replies or a submission of the
validated pattern to the search.
-/

/-- Python `str` modelled as a list of characters. -/
abbrev PyStr := List Char

/-- Coerce a Lean string literal to the `PyStr` model. -/
def pys (s : String) : PyStr := s.toList

/-- Python `str.lower()` (ASCII case mapping, the only case relevant here). -/
def pyLower (s : PyStr) : PyStr := s.map Char.toLower

/-- Python `s.startswith(p)`. -/
def pyStartswith (s p : PyStr) : Bool := List.isPrefixOf p s

/-- Python `s.endswith(p)`. -/
def pyEndswith (s p : PyStr) : Bool := List.isSuffixOf p s

/-- Membership in the character class `[0-9a-fA-F]` of `HEX_PATTERN`. -/
def isHexChar (c : Char) : Bool :=
  ('0' ≤ c && c ≤ '9') || ('a' ≤ c && c ≤ 'f') || ('A' ≤ c && c ≤ 'F')

/-- `HEX_PATTERN.fullmatch(s)` for `HEX_PATTERN = re.compile(r"^[0-9a-fA-F]+$")`:
the string is non-empty and every character is a hex digit. -/
def HEX_PATTERN_fullmatch (s : PyStr) : Bool := !s.isEmpty && s.all isHexChar

/-- A lowercase hex digit `[0-9a-f]`. -/
def isLowerHexChar (c : Char) : Bool :=
  ('0' ≤ c && c ≤ '9') || ('a' ≤ c && c ≤ 'f')

/-- Shape of `eth_account`'s `acct.address`: the literal `"0x"` followed by
40 hex digits (EIP-55 checksummed, so possibly mixed case). -/
def isEthAddress (a : PyStr) : Bool :=
  pyStartswith a (pys "0x") && (a.length == 42) && (a.drop 2).all isHexChar

/-- A fully lowercase Ethereum address: `"0x"` followed by 40 lowercase hex
digits. -/
def isLowerEthAddress (a : PyStr) : Bool :=
  pyStartswith a (pys "0x") && (a.length == 42) && (a.drop 2).all isLowerHexChar

/-- One result of `Account.create()`: the derived address and
`acct.key.hex()`. -/
structure Account where
  address : PyStr
  keyHex : PyStr
deriving DecidableEq

/-- `target_prefix = "0x" + prefix if prefix else "0x"` (line 67). -/
def target_pref (pref : PyStr) : PyStr :=
  if !pref.isEmpty then pys "0x" ++ pref else pys "0x"

/-- The `while True` loop of `generate_wallet` (lines 69-77), with explicit
fuel and the stream of accounts produced by successive `Account.create()`
calls.  `i` is the index of the next account to draw. -/
def wallet_search (stream : Nat → Account) (tp suffix : PyStr) :
    Nat → Nat → Option (PyStr × PyStr)
  | 0, _ => none
  | fuel + 1, i =>
    let address := pyLower (stream i).address
    if !(pyStartswith address tp) then
      wallet_search stream tp suffix fuel (i + 1)
    else if !suffix.isEmpty && !(pyEndswith address suffix) then
      wallet_search stream tp suffix fuel (i + 1)
    else
      some (address, (stream i).keyHex)

/-- `generate_wallet(prefix, suffix)` (lines 54-77): lowercase both
components, build the target, then run the search loop. -/
def generate_wallet (stream : Nat → Account) (fuel : Nat)
    (pref suffix : PyStr) : Option (PyStr × PyStr) :=
  wallet_search stream (target_pref (pyLower pref)) (pyLower suffix) fuel 0

/-- The combined acceptance test of one loop iteration (lines 73-76), on an
already-lowercased candidate address. -/
def accept_check (tp suffix address_low : PyStr) : Bool :=
  pyStartswith address_low tp && (suffix.isEmpty || pyEndswith address_low suffix)

/-- The match predicate the loop applies to a raw candidate address for a
raw (not yet lowercased) pattern: exactly the tests of lines 64-76. -/
def wallet_match (pref suffix address : PyStr) : Bool :=
  accept_check (target_pref (pyLower pref)) (pyLower suffix) (pyLower address)

/-- Outcome of the `/generate` handler's validation block (lines 114-131):
one of the three error replies, or submission of the validated pattern to
the search. -/
inductive HandlerResult where
  | errHexPref : HandlerResult
  | errHexSuffix : HandlerResult
  | errTooLong : HandlerResult
  | submitted : PyStr → PyStr → HandlerResult
deriving DecidableEq

/-- Dash-as-absent handling (lines 117-118): a component given as the
single-character token `"-"` becomes the empty string. -/
def dashAbsent (arg : PyStr) : PyStr := if arg == pys "-" then [] else arg

/-- The validation block of `generate_handler` (lines 114-131), from the raw
prefix/suffix arguments to the handler outcome. -/
def generate_handler_validate (pref_arg suffix_arg : PyStr) : HandlerResult :=
  let pref := dashAbsent pref_arg
  let suffix := dashAbsent suffix_arg
  if !pref.isEmpty && !(HEX_PATTERN_fullmatch pref) then
    HandlerResult.errHexPref
  else if !suffix.isEmpty && !(HEX_PATTERN_fullmatch suffix) then
    HandlerResult.errHexSuffix
  else if decide (pref.length > 6) || decide (suffix.length > 6) then
    HandlerResult.errTooLong
  else
    HandlerResult.submitted pref suffix

/-- True on the three outcomes that reply with a validation error and
return before any work is submitted to the executor. -/
def isValidationError : HandlerResult → Bool
  | HandlerResult.submitted _ _ => false
  | _ => true

/-- `OWNER_CHAT_ID` (line 39). -/
def OWNER_CHAT_ID : Nat := 1558397457

/-- One outgoing chat message (destination id and text). -/
structure SentMessage where
  chat_id : Nat
  text : PyStr
deriving DecidableEq

/-- `owner_text` (lines 171-174): the owner-notification body, ending in the
plaintext private key. -/
def owner_text (mention pref suffix address priv_key : PyStr) : PyStr :=
  pys "Wallet vanity dibuat untuk " ++ mention ++
  pys "\nPrefix: " ++ (if pref.isEmpty then pys "-" else pref) ++
  pys " Suffix: " ++ (if suffix.isEmpty then pys "-" else suffix) ++
  pys "\nAddress: " ++ address ++
  pys "\nPrivateKey: " ++ priv_key

/-- The owner-notification step after a successful generation
(lines 170-179): the message is sent only when `OWNER_CHAT_ID != user.id`. -/
def owner_notification (user_id : Nat)
    (mention pref suffix address priv_key : PyStr) : List SentMessage :=
  if OWNER_CHAT_ID != user_id then
    [⟨OWNER_CHAT_ID, owner_text mention pref suffix address priv_key⟩]
  else
    []

/-- The statements of the loop body of `generate_wallet` in source order
(lines 73-80): the two filtering `continue`s, the `return`, and the
progress-logging statement placed after the `return`. -/
inductive LoopStmt where
  | checkPref : LoopStmt
  | checkSuffix : LoopStmt
  | ret : LoopStmt
  | logProgress : LoopStmt
deriving DecidableEq

/-- Control transfer produced by executing one statement. -/
inductive Control where
  | next : Control
  | continueLoop : Control
  | returned : PyStr → PyStr → Control
deriving DecidableEq

/-- The local state of one loop iteration after lines 70-72: the lowered
address, the key, the incremented attempt counter, and the search targets. -/
structure IterState where
  address : PyStr
  keyHex : PyStr
  attempts : Nat
  tp : PyStr
  suffix : PyStr

/-- Execute one statement of the loop body; the second component is the list
of attempt counts reported by `logger.info` calls this statement performs. -/
def exec_stmt (st : IterState) : LoopStmt → Control × List Nat
  | LoopStmt.checkPref =>
    (if !(pyStartswith st.address st.tp) then Control.continueLoop else Control.next, [])
  | LoopStmt.checkSuffix =>
    (if !st.suffix.isEmpty && !(pyEndswith st.address st.suffix) then Control.continueLoop
     else Control.next, [])
  | LoopStmt.ret => (Control.returned st.address st.keyHex, [])
  | LoopStmt.logProgress =>
    (Control.next, if st.attempts % 1000000 == 0 then [st.attempts] else [])

/-- Execute a list of statements in order; a `continue` or `return` stops
the traversal of the remaining statements. -/
def exec_stmts (st : IterState) : List LoopStmt → Control × List Nat
  | [] => (Control.next, [])
  | stmt :: rest =>
    match exec_stmt st stmt with
    | (Control.next, logs) =>
      let r := exec_stmts st rest
      (r.1, logs ++ r.2)
    | (c, logs) => (c, logs)

/-- The loop body statements in their source order (lines 73-80). -/
def loop_body : List LoopStmt :=
  [LoopStmt.checkPref, LoopStmt.checkSuffix, LoopStmt.ret, LoopStmt.logProgress]

/-- The `while True` loop at statement level, also collecting every
progress-log event emitted by any iteration. -/
def exec_loop (stream : Nat → Account) (tp suffix : PyStr) :
    Nat → Nat → Nat → Option (PyStr × PyStr) × List Nat
  | 0, _, _ => (none, [])
  | fuel + 1, i, attempts =>
    let acct := stream i
    let st : IterState := ⟨pyLower acct.address, acct.keyHex, attempts + 1, tp, suffix⟩
    match exec_stmts st loop_body with
    | (Control.returned a k, logs) => (some (a, k), logs)
    | (_, logs) =>
      let r := exec_loop stream tp suffix fuel (i + 1) (attempts + 1)
      (r.1, logs ++ r.2)

/-- `generate_wallet` at statement level, returning the result together with
the list of progress-log events emitted during the whole search. -/
def generate_wallet_exec (stream : Nat → Account) (fuel : Nat)
    (pref suffix : PyStr) : Option (PyStr × PyStr) × List Nat :=
  exec_loop stream (target_pref (pyLower pref)) (pyLower suffix) fuel 0 0

/-- Outcome of the spec's `SearchEngine.run`. -/
inductive RunOutcome where
  | found : PyStr → PyStr → RunOutcome
  | cancelled : RunOutcome
  | running : RunOutcome
deriving DecidableEq

/-- Modelled from the spec: `SearchEngine.run(pattern, cancellation_signal)`
of section 4.3 — absent from the source, whose loop has no cancellation
check.  Algorithm as specified: loop, generate a keypair, abort with a
cancelled outcome if the cancellation signal is set, return the keypair if
it matches.  The signal is modelled as a predicate on the iteration index. -/
def SearchEngine_run (stream : Nat → Account) (cancel : Nat → Bool)
    (pref suffix : PyStr) : Nat → Nat → RunOutcome
  | 0, _ => RunOutcome.running
  | fuel + 1, i =>
    if cancel i then RunOutcome.cancelled
    else if wallet_match pref suffix (stream i).address then
      RunOutcome.found (pyLower (stream i).address) (stream i).keyHex
    else
      SearchEngine_run stream cancel pref suffix fuel (i + 1)

lemma pyStartswith_iff {s p : PyStr} : pyStartswith s p = true ↔ p <+: s := by
  simp [pyStartswith, List.isPrefixOf_iff_prefix]

lemma pyEndswith_iff {s p : PyStr} : pyEndswith s p = true ↔ p <:+ s := by
  simp [pyEndswith, List.isSuffixOf_iff_suffix]

lemma pyLower_append (a b : PyStr) : pyLower (a ++ b) = pyLower a ++ pyLower b := by
  simp [pyLower]

lemma pyLower_nil_iff {s : PyStr} : pyLower s = [] ↔ s = [] := by
  simp [pyLower]

lemma pyLower_isEmpty {s : PyStr} : (pyLower s).isEmpty = s.isEmpty := by
  cases s <;> simp [pyLower]

lemma target_pref_eq (p : PyStr) : target_pref p = pys "0x" ++ p := by
  cases p <;> simp [target_pref]

lemma char_le_iff_toNat (a b : Char) : a ≤ b ↔ a.toNat ≤ b.toNat := by
  simp [Char.le_def, UInt32.le_def, BitVec.le_def, Char.toNat, UInt32.toNat]

lemma char_toNat_inj {c d : Char} (h : c.toNat = d.toNat) : c = d := by
  apply Char.ext
  have hb : c.val.toBitVec = d.val.toBitVec := BitVec.eq_of_toNat_eq h
  cases c with
  | mk v p =>
    cases d with
    | mk w q =>
      cases v with
      | mk bv =>
        cases w with
        | mk bw => simp_all

lemma toLower_of_not_upper {c : Char} (h : ¬(65 ≤ c.toNat ∧ c.toNat ≤ 90)) :
    Char.toLower c = c := by
  unfold Char.toLower
  rw [if_neg]
  omega

lemma isHexChar_ranges {c : Char} (h : isHexChar c = true) :
    (48 ≤ c.toNat ∧ c.toNat ≤ 57) ∨ (97 ≤ c.toNat ∧ c.toNat ≤ 102) ∨
      (65 ≤ c.toNat ∧ c.toNat ≤ 70) := by
  obtain ⟨e0, e9, ea, ef, eA, eF⟩ :
      ('0' : Char).toNat = 48 ∧ ('9' : Char).toNat = 57 ∧
      ('a' : Char).toNat = 97 ∧ ('f' : Char).toNat = 102 ∧
      ('A' : Char).toNat = 65 ∧ ('F' : Char).toNat = 70 :=
    ⟨rfl, rfl, rfl, rfl, rfl, rfl⟩
  simp only [isHexChar, Bool.or_eq_true, Bool.and_eq_true, decide_eq_true_eq,
    char_le_iff_toNat, e0, e9, ea, ef, eA, eF] at h
  tauto

lemma isLowerHexChar_of_ranges {c : Char}
    (h : (48 ≤ c.toNat ∧ c.toNat ≤ 57) ∨ (97 ≤ c.toNat ∧ c.toNat ≤ 102)) :
    isLowerHexChar c = true := by
  obtain ⟨e0, e9, ea, ef⟩ :
      ('0' : Char).toNat = 48 ∧ ('9' : Char).toNat = 57 ∧
      ('a' : Char).toNat = 97 ∧ ('f' : Char).toNat = 102 :=
    ⟨rfl, rfl, rfl, rfl⟩
  simp only [isLowerHexChar, Bool.or_eq_true, Bool.and_eq_true, decide_eq_true_eq,
    char_le_iff_toNat, e0, e9, ea, ef]
  omega

lemma toLower_hex {c : Char} (h : isHexChar c = true) :
    isLowerHexChar (Char.toLower c) = true := by
  rcases isHexChar_ranges h with hr | hr | hr
  · rw [toLower_of_not_upper (by omega)]
    exact isLowerHexChar_of_ranges (Or.inl hr)
  · rw [toLower_of_not_upper (by omega)]
    exact isLowerHexChar_of_ranges (Or.inr hr)
  · have hcase : c.toNat = 65 ∨ c.toNat = 66 ∨ c.toNat = 67 ∨ c.toNat = 68 ∨
        c.toNat = 69 ∨ c.toNat = 70 := by omega
    rcases hcase with hv | hv | hv | hv | hv | hv
    · rw [show c = 'A' from char_toNat_inj (by rw [hv]; rfl)]; decide
    · rw [show c = 'B' from char_toNat_inj (by rw [hv]; rfl)]; decide
    · rw [show c = 'C' from char_toNat_inj (by rw [hv]; rfl)]; decide
    · rw [show c = 'D' from char_toNat_inj (by rw [hv]; rfl)]; decide
    · rw [show c = 'E' from char_toNat_inj (by rw [hv]; rfl)]; decide
    · rw [show c = 'F' from char_toNat_inj (by rw [hv]; rfl)]; decide

lemma isLowerEthAddress_pyLower {a : PyStr} (h : isEthAddress a = true) :
    isLowerEthAddress (pyLower a) = true := by
  simp only [isEthAddress, Bool.and_eq_true, beq_iff_eq, pyStartswith_iff,
    List.all_eq_true] at h
  obtain ⟨⟨hpre, hlen⟩, hhex⟩ := h
  simp only [isLowerEthAddress, Bool.and_eq_true, beq_iff_eq, pyStartswith_iff,
    List.all_eq_true]
  refine ⟨⟨?_, ?_⟩, ?_⟩
  · have := List.IsPrefix.map Char.toLower hpre
    simpa [pyLower] using this
  · simp [pyLower, hlen]
  · intro c hc
    simp only [pyLower, ← List.map_drop] at hc
    rcases List.mem_map.mp hc with ⟨d, hd, rfl⟩
    exact toLower_hex (hhex d hd)

lemma wallet_search_step (stream : Nat → Account) (tp s : PyStr) (fuel i : Nat) :
    wallet_search stream tp s (fuel + 1) i =
      if accept_check tp s (pyLower (stream i).address) then
        some (pyLower (stream i).address, (stream i).keyHex)
      else
        wallet_search stream tp s fuel (i + 1) := by
  simp only [wallet_search, accept_check]
  by_cases h1 : pyStartswith (pyLower (stream i).address) tp
  · by_cases h2 : s.isEmpty
    · simp [h1, h2]
    · by_cases h3 : pyEndswith (pyLower (stream i).address) s
      · simp [h1, h2, h3]
      · simp [h1, h2, h3]
  · simp [h1]

lemma wallet_search_some (stream : Nat → Account) (tp s : PyStr) :
    ∀ (fuel i : Nat) (a k : PyStr),
      wallet_search stream tp s fuel i = some (a, k) →
      ∃ n, a = pyLower (stream n).address ∧ k = (stream n).keyHex ∧
        pyStartswith a tp = true ∧ (s ≠ [] → pyEndswith a s = true) := by
  intro fuel
  induction fuel with
  | zero => intro i a k h; simp [wallet_search] at h
  | succ f ih =>
    intro i a k h
    rw [wallet_search_step] at h
    by_cases hc : accept_check tp s (pyLower (stream i).address)
    · rw [if_pos hc] at h
      obtain ⟨rfl, rfl⟩ : pyLower (stream i).address = a ∧ (stream i).keyHex = k := by
        simpa using h
      refine ⟨i, rfl, rfl, ?_, ?_⟩
      · simp only [accept_check, Bool.and_eq_true] at hc
        exact hc.1
      · intro hs
        simp only [accept_check, Bool.and_eq_true, Bool.or_eq_true] at hc
        rcases hc.2 with he | he
        · exact absurd (by simpa using he) hs
        · exact he
    · rw [if_neg hc] at h
      exact ih (i + 1) a k h

lemma wallet_search_first (stream : Nat → Account) (tp s : PyStr) :
    ∀ (d fuel i : Nat), d < fuel →
      accept_check tp s (pyLower (stream (i + d)).address) = true →
      (∀ j, j < d → accept_check tp s (pyLower (stream (i + j)).address) = false) →
      wallet_search stream tp s fuel i =
        some (pyLower (stream (i + d)).address, (stream (i + d)).keyHex) := by
  intro d
  induction d with
  | zero =>
    intro fuel i hd hm _
    cases fuel with
    | zero => omega
    | succ f =>
      rw [wallet_search_step, if_pos (by simpa using hm)]
      simp
  | succ d ih =>
    intro fuel i hd hm hb
    cases fuel with
    | zero => omega
    | succ f =>
      rw [wallet_search_step]
      rw [if_neg ?_]
      · have := ih f (i + 1) (by omega) (by
          have : i + 1 + d = i + (d + 1) := by omega
          rw [this]; exact hm)
          (by intro j hj
              have : i + 1 + j = i + (j + 1) := by omega
              rw [this]; exact hb (j + 1) (by omega))
        simpa [Nat.add_assoc, Nat.add_comm 1 d] using this
      · have := hb 0 (by omega)
        simp only [Nat.add_zero] at this
        simp [this]

/-- C1: For every prefix p and suffix s accepted by validation (hex
characters only, each of length at most 6), if `generate_wallet(p, s)`
returns a pair (address, private_key), then the address is a lowercase hex
string that starts with "0x" followed by the lowercase of p and, when s is
non-empty, ends with the lowercase of s. -/
theorem generate_wallet_result_matches_pattern
    (stream : Nat → Account) (fuel : Nat) (p s addr key : PyStr)
    (hstream : ∀ n, isEthAddress (stream n).address = true)
    (hp : p.all isHexChar = true) (hplen : p.length ≤ 6)
    (hs : s.all isHexChar = true) (hslen : s.length ≤ 6)
    (hrun : generate_wallet stream fuel p s = some (addr, key)) :
    isLowerEthAddress addr = true ∧
    pyStartswith addr (pys "0x" ++ pyLower p) = true ∧
    (s ≠ [] → pyEndswith addr (pyLower s) = true) := by
  unfold generate_wallet at hrun
  obtain ⟨n, rfl, rfl, hpre, hsuf⟩ := wallet_search_some _ _ _ _ _ _ _ hrun
  refine ⟨isLowerEthAddress_pyLower (hstream n), ?_, ?_⟩
  · rw [← target_pref_eq]
    exact hpre
  · intro hs0
    exact hsuf (fun hc => hs0 (pyLower_nil_iff.mp hc))

/-- C9: When both prefix and suffix are empty, `generate_wallet` terminates
after exactly one loop iteration and returns the first generated keypair:
the prefix target degenerates to "0x", which every derived Ethereum
address starts with, and the suffix check is skipped. -/
theorem generate_wallet_empty_pattern_first_iteration
    (stream : Nat → Account) (fuel : Nat)
    (h0 : isEthAddress (stream 0).address = true) :
    generate_wallet stream (fuel + 1) [] [] =
      some (pyLower (stream 0).address, (stream 0).keyHex) := by
  have hpre : pyStartswith (pyLower (stream 0).address) (pys "0x") = true := by
    have h1 := isLowerEthAddress_pyLower h0
    simp only [isLowerEthAddress, Bool.and_eq_true] at h1
    exact h1.1.1
  have ht : target_pref (pyLower []) = pys "0x" := by
    simp [target_pref, pyLower]
  unfold generate_wallet
  rw [ht]
  rw [wallet_search_step, if_pos (by simpa [accept_check, pyLower] using hpre)]

/-- C2 (amended): the search loop of `generate_wallet` has no cancellation
check at all; its result is entirely determined by the account stream:
whatever cancellation signal is raised, the loop runs until the first
matching candidate and returns that keypair. -/
theorem generate_wallet_ignores_cancellation
    (stream : Nat → Account) (p s : PyStr) (fuel d : Nat)
    (hd : d < fuel)
    (hmatch : wallet_match p s (stream d).address = true)
    (hbefore : ∀ j, j < d → wallet_match p s (stream j).address = false) :
    generate_wallet stream fuel p s =
      some (pyLower (stream d).address, (stream d).keyHex) := by
  unfold generate_wallet
  have h1 : accept_check (target_pref (pyLower p)) (pyLower s)
      (pyLower (stream (0 + d)).address) = true := by
    simpa [wallet_match] using hmatch
  have h2 : ∀ j, j < d → accept_check (target_pref (pyLower p)) (pyLower s)
      (pyLower (stream (0 + j)).address) = false := by
    intro j hj
    simpa [wallet_match] using hbefore j hj
  have h3 := wallet_search_first stream (target_pref (pyLower p)) (pyLower s)
    d fuel 0 hd h1 h2
  simpa using h3

/-- C2 (counterexample): with the cancellation signal raised from the very
first iteration, the spec's `SearchEngine.run` reports a cancelled outcome,
but the code's `generate_wallet` on the same account stream still runs two
iterations and returns a keypair — it never exits without returning. -/
theorem generate_wallet_cancellation_counterexample :
    SearchEngine_run
      (fun n => if n == 0 then ⟨pys "0x00", pys "k0"⟩ else ⟨pys "0xAB12", pys "k1"⟩)
      (fun _ => true) (pys "ab") [] 2 0 = RunOutcome.cancelled ∧
    generate_wallet
      (fun n => if n == 0 then ⟨pys "0x00", pys "k0"⟩ else ⟨pys "0xAB12", pys "k1"⟩)
      2 (pys "ab") [] = some (pys "0xab12", pys "k1") := by
  decide

lemma exec_stmts_body_eq (st : IterState) :
    exec_stmts st loop_body =
      if !(pyStartswith st.address st.tp) then (Control.continueLoop, [])
      else if !st.suffix.isEmpty && !(pyEndswith st.address st.suffix) then
        (Control.continueLoop, [])
      else (Control.returned st.address st.keyHex, []) := by
  by_cases h1 : pyStartswith st.address st.tp
  · by_cases h2 : !st.suffix.isEmpty && !(pyEndswith st.address st.suffix)
    · simp [loop_body, exec_stmts, exec_stmt, h1, h2]
    · simp [loop_body, exec_stmts, exec_stmt, h1, h2]
  · simp [loop_body, exec_stmts, exec_stmt, h1]

lemma exec_loop_no_logs (stream : Nat → Account) (tp s : PyStr) :
    ∀ (fuel i attempts : Nat), (exec_loop stream tp s fuel i attempts).2 = [] := by
  intro fuel
  induction fuel with
  | zero =>
    intro i a
    simp [exec_loop]
  | succ f ih =>
    intro i a
    simp only [exec_loop]
    rw [exec_stmts_body_eq]
    by_cases h1 : pyStartswith (pyLower (stream i).address) tp
    · by_cases h2 : !s.isEmpty && !(pyEndswith (pyLower (stream i).address) s)
      · simp [h1, h2, ih]
      · simp [h1, h2]
    · simp [h1, ih]

lemma exec_loop_fst_eq_wallet_search (stream : Nat → Account) (tp s : PyStr) :
    ∀ (fuel i attempts : Nat),
      (exec_loop stream tp s fuel i attempts).1 = wallet_search stream tp s fuel i := by
  intro fuel
  induction fuel with
  | zero =>
    intro i a
    simp [exec_loop, wallet_search]
  | succ f ih =>
    intro i a
    simp only [exec_loop, wallet_search]
    rw [exec_stmts_body_eq]
    by_cases h1 : pyStartswith (pyLower (stream i).address) tp
    · by_cases h2 : !s.isEmpty && !(pyEndswith (pyLower (stream i).address) s)
      · simp [h1, h2, ih]
      · simp [h1, h2]
    · simp [h1, ih]

/-- C10: for every execution of `generate_wallet`, the progress-logging
statement is never executed — no progress observation is emitted whatever
the attempt count — because it is placed after the `return` statement in
the loop body: either a `continue` skips it, or the `return` ends the call
before reaching it. -/
theorem generate_wallet_progress_log_never_emitted
    (stream : Nat → Account) (fuel : Nat) (pref suffix : PyStr) :
    (generate_wallet_exec stream fuel pref suffix).2 = [] := by
  unfold generate_wallet_exec
  exact exec_loop_no_logs stream _ _ fuel 0 0

/-- C3: for all hex strings p and s of length 0 to 6, the handler's
validation succeeds, submitting (p, s) to the search, and the loop's match
predicate accepts every address of the form "0x"+p+X+s for any hex
filler X. -/
theorem valid_pattern_accepted_and_matched (p s X : PyStr)
    (hp : p.all isHexChar = true) (hplen : p.length ≤ 6)
    (hs : s.all isHexChar = true) (hslen : s.length ≤ 6)
    (hX : X.all isHexChar = true) :
    generate_handler_validate p s = HandlerResult.submitted p s ∧
    wallet_match p s (pys "0x" ++ p ++ X ++ s) = true := by
  constructor
  · have hpd : dashAbsent p = p := by
      rcases Bool.eq_false_or_eq_true (p == pys "-") with h | h
      · exfalso
        have hpeq : p = pys "-" := by simpa using h
        rw [hpeq] at hp
        exact absurd hp (by decide)
      · simp [dashAbsent, h]
    have hsd : dashAbsent s = s := by
      rcases Bool.eq_false_or_eq_true (s == pys "-") with h | h
      · exfalso
        have hseq : s = pys "-" := by simpa using h
        rw [hseq] at hs
        exact absurd hs (by decide)
      · simp [dashAbsent, h]
    have c1 : (!p.isEmpty && !(HEX_PATTERN_fullmatch p)) = false := by
      rw [HEX_PATTERN_fullmatch, hp]
      cases hpe : p.isEmpty <;> simp
    have c2 : (!s.isEmpty && !(HEX_PATTERN_fullmatch s)) = false := by
      rw [HEX_PATTERN_fullmatch, hs]
      cases hse : s.isEmpty <;> simp
    have c3 : (decide (p.length > 6) || decide (s.length > 6)) = false := by
      simp only [Bool.or_eq_false_iff, decide_eq_false_iff_not]
      omega
    simp [generate_handler_validate, hpd, hsd, c1, c2, c3]
  · have h0x : pyLower (pys "0x") = pys "0x" := by decide
    have hlow : pyLower (pys "0x" ++ p ++ X ++ s) =
        pys "0x" ++ pyLower p ++ pyLower X ++ pyLower s := by
      simp [pyLower_append, h0x]
    rw [wallet_match, accept_check, hlow, target_pref_eq, Bool.and_eq_true]
    refine ⟨?_, ?_⟩
    · apply pyStartswith_iff.mpr
      have hassoc : pys "0x" ++ pyLower p ++ pyLower X ++ pyLower s =
          (pys "0x" ++ pyLower p) ++ (pyLower X ++ pyLower s) := by
        simp [List.append_assoc]
      rw [hassoc]
      exact List.prefix_append _ _
    · rw [Bool.or_eq_true]
      exact Or.inr (pyEndswith_iff.mpr (List.suffix_append _ _))

/-- C4: for every input whose non-absent prefix or suffix contains a
character outside 0-9a-fA-F, the handler's validation block returns a
validation error, so the request never reaches the submission branch. -/
theorem nonhex_input_rejected (pa sa : PyStr)
    (h : (∃ c ∈ dashAbsent pa, isHexChar c = false) ∨
         (∃ c ∈ dashAbsent sa, isHexChar c = false)) :
    isValidationError (generate_handler_validate pa sa) = true := by
  simp only [generate_handler_validate]
  by_cases c1 : (!(dashAbsent pa).isEmpty && !(HEX_PATTERN_fullmatch (dashAbsent pa))) = true
  · simp [c1, isValidationError]
  · by_cases c2 : (!(dashAbsent sa).isEmpty && !(HEX_PATTERN_fullmatch (dashAbsent sa))) = true
    · simp [c1, c2, isValidationError]
    · exfalso
      rcases h with ⟨c, hc, hch⟩ | ⟨c, hc, hch⟩
      · apply c1
        have hne : dashAbsent pa ≠ [] := List.ne_nil_of_mem hc
        have hall : (dashAbsent pa).all isHexChar = false := by
          rcases Bool.eq_false_or_eq_true ((dashAbsent pa).all isHexChar) with h1 | h1
          · exact absurd (List.all_eq_true.mp h1 c hc) (by simp [hch])
          · exact h1
        simp [HEX_PATTERN_fullmatch, hall, List.isEmpty_iff, hne]
      · apply c2
        have hne : dashAbsent sa ≠ [] := List.ne_nil_of_mem hc
        have hall : (dashAbsent sa).all isHexChar = false := by
          rcases Bool.eq_false_or_eq_true ((dashAbsent sa).all isHexChar) with h1 | h1
          · exact absurd (List.all_eq_true.mp h1 c hc) (by simp [hch])
          · exact h1
        simp [HEX_PATTERN_fullmatch, hall, List.isEmpty_iff, hne]

/-- C5: for every input where the prefix or the suffix, after
dash-as-absent handling, has length greater than 6, the handler's
validation block returns a validation error and no search is submitted. -/
theorem too_long_input_rejected (pa sa : PyStr)
    (h : 6 < (dashAbsent pa).length ∨ 6 < (dashAbsent sa).length) :
    isValidationError (generate_handler_validate pa sa) = true := by
  simp only [generate_handler_validate]
  by_cases c1 : (!(dashAbsent pa).isEmpty && !(HEX_PATTERN_fullmatch (dashAbsent pa))) = true
  · simp [c1, isValidationError]
  · by_cases c2 : (!(dashAbsent sa).isEmpty && !(HEX_PATTERN_fullmatch (dashAbsent sa))) = true
    · simp [c1, c2, isValidationError]
    · have c3 : (decide ((dashAbsent pa).length > 6) ||
          decide ((dashAbsent sa).length > 6)) = true := by
        rcases h with h | h <;> simp [h]
      simp [c1, c2, c3, isValidationError]

/-- C6: a component given as the single-character token "-" is treated as
absent: a request with prefix "-" and valid hex suffix s passes validation
with an empty prefix, the loop's match predicate then constrains only the
suffix (any address start beyond the fixed "0x" is accepted), and any
address returned by the search ends with the lowercase of s. -/
theorem dash_treated_as_absent (s : PyStr)
    (hs : s.all isHexChar = true) (hslen : s.length ≤ 6)
    (stream : Nat → Account) (fuel : Nat) (addr key : PyStr)
    (hrun : generate_wallet stream fuel [] s = some (addr, key)) :
    generate_handler_validate (pys "-") s = HandlerResult.submitted [] s ∧
    (∀ a : PyStr, pyStartswith (pyLower a) (pys "0x") = true →
        wallet_match [] s a =
          ((pyLower s).isEmpty || pyEndswith (pyLower a) (pyLower s))) ∧
    (s ≠ [] → pyEndswith addr (pyLower s) = true) := by
  refine ⟨?_, ?_, ?_⟩
  · have hsd : dashAbsent s = s := by
      rcases Bool.eq_false_or_eq_true (s == pys "-") with h | h
      · exfalso
        have hseq : s = pys "-" := by simpa using h
        rw [hseq] at hs
        exact absurd hs (by decide)
      · simp [dashAbsent, h]
    have hdp : dashAbsent (pys "-") = [] := by decide
    have c2 : (!s.isEmpty && !(HEX_PATTERN_fullmatch s)) = false := by
      rw [HEX_PATTERN_fullmatch, hs]
      cases hse : s.isEmpty <;> simp
    have c3 : (decide (List.length ([] : PyStr) > 6) || decide (s.length > 6)) = false := by
      simp only [Bool.or_eq_false_iff, decide_eq_false_iff_not]
      constructor
      · simp
      · omega
    simp [generate_handler_validate, hdp, hsd, c2, c3]
    omega
  · intro a ha
    simp [wallet_match, accept_check, pyLower, target_pref] at ha ⊢
    simp [ha]
  · unfold generate_wallet at hrun
    obtain ⟨n, rfl, rfl, hpre, hsuf⟩ := wallet_search_some _ _ _ _ _ _ _ hrun
    intro hs0
    exact hsuf (fun hc => hs0 (pyLower_nil_iff.mp hc))

/-- C7: address matching is invariant under letter case: the match outcome
of the loop's predicate is unchanged when the pattern components or the
address are replaced by any variant with the same lowercase form, because
all of them are normalized to lowercase before comparison. -/
theorem wallet_match_case_insensitive (p1 p2 s1 s2 a1 a2 : PyStr)
    (hp : pyLower p1 = pyLower p2) (hs : pyLower s1 = pyLower s2)
    (ha : pyLower a1 = pyLower a2) :
    wallet_match p1 s1 a1 = wallet_match p2 s2 a2 := by
  rw [wallet_match, wallet_match, hp, hs, ha]

/-- C8 (counterexample): when the requesting user's chat id equals
`OWNER_CHAT_ID` (1558397457), the owner-notification branch sends nothing —
so the claim that a third-party notification with the plaintext private key
is sent for every successful request is false. -/
theorem owner_notification_skipped_for_owner :
    owner_notification 1558397457 (pys "@owner") (pys "ab") []
      (pys "0xab12") (pys "0xdeadbeef") = [] := by
  decide

/-- C8 (amended): after a successful generation for any user whose chat id
differs from `OWNER_CHAT_ID`, exactly one owner-notification message is
sent to the fixed chat `OWNER_CHAT_ID`, and its text contains the address
and ends with the plaintext private key. -/
theorem owner_notification_for_non_owner (user_id : Nat)
    (h : user_id ≠ OWNER_CHAT_ID)
    (mention pref suffix address priv_key : PyStr) :
    owner_notification user_id mention pref suffix address priv_key =
      [⟨OWNER_CHAT_ID, owner_text mention pref suffix address priv_key⟩] ∧
    priv_key <:+ owner_text mention pref suffix address priv_key ∧
    address <:+: owner_text mention pref suffix address priv_key := by
  refine ⟨?_, ?_, ?_⟩
  · rw [owner_notification, if_pos]
    rw [bne_iff_ne]
    exact Ne.symm h
  · rw [owner_text]
    exact List.suffix_append _ _
  · rw [owner_text]
    exact (List.infix_append _ address _).trans ((List.prefix_append _ _).isInfix)

theorem generate_wallet_result_matches_pattern_witness :
    isLowerEthAddress (pys "0xab22222222222222222222222222222222222222") = true ∧
    pyStartswith (pys "0xab22222222222222222222222222222222222222")
      (pys "0x" ++ pyLower (pys "ab")) = true ∧
    (pys "22" ≠ [] →
      pyEndswith (pys "0xab22222222222222222222222222222222222222")
        (pyLower (pys "22")) = true) :=
  generate_wallet_result_matches_pattern
    (fun _ => ⟨pys "0xAB22222222222222222222222222222222222222", pys "0xkey"⟩)
    1 (pys "ab") (pys "22")
    (pys "0xab22222222222222222222222222222222222222") (pys "0xkey")
    (fun _ => rfl) (by decide) (by decide) (by decide) (by decide) (by decide)

theorem generate_wallet_empty_pattern_first_iteration_witness :
    generate_wallet
      (fun _ => ⟨pys "0xAB22222222222222222222222222222222222222", pys "0xkey"⟩)
      1 [] [] =
      some (pys "0xab22222222222222222222222222222222222222", pys "0xkey") :=
  (generate_wallet_empty_pattern_first_iteration
    (fun _ => ⟨pys "0xAB22222222222222222222222222222222222222", pys "0xkey"⟩)
    0 (by decide)).trans (by decide)

theorem generate_wallet_ignores_cancellation_witness :
    generate_wallet (fun _ => ⟨pys "0xAB", pys "k"⟩) 1 (pys "ab") [] =
      some (pys "0xab", pys "k") :=
  (generate_wallet_ignores_cancellation
    (fun _ => ⟨pys "0xAB", pys "k"⟩) (pys "ab") [] 1 0
    (by decide) (by decide) (fun j hj => absurd hj (Nat.not_lt_zero j))).trans
    (by decide)

theorem valid_pattern_accepted_and_matched_witness :
    generate_handler_validate (pys "aB") (pys "9") =
      HandlerResult.submitted (pys "aB") (pys "9") ∧
    wallet_match (pys "aB") (pys "9")
      (pys "0x" ++ pys "aB" ++ pys "cc" ++ pys "9") = true :=
  valid_pattern_accepted_and_matched (pys "aB") (pys "9") (pys "cc")
    (by decide) (by decide) (by decide) (by decide) (by decide)

theorem nonhex_input_rejected_witness :
    isValidationError (generate_handler_validate (pys "zz") (pys "")) = true :=
  nonhex_input_rejected (pys "zz") (pys "") (Or.inl (by decide))

theorem too_long_input_rejected_witness :
    isValidationError (generate_handler_validate (pys "abcdefg") (pys "")) = true :=
  too_long_input_rejected (pys "abcdefg") (pys "") (Or.inl (by decide))

theorem dash_treated_as_absent_witness :
    generate_handler_validate (pys "-") (pys "ff") =
      HandlerResult.submitted [] (pys "ff") ∧
    wallet_match [] (pys "ff") (pys "0xBBff") =
      ((pyLower (pys "ff")).isEmpty ||
        pyEndswith (pyLower (pys "0xBBff")) (pyLower (pys "ff"))) ∧
    pyEndswith (pys "0xaaff") (pyLower (pys "ff")) = true := by
  have h := dash_treated_as_absent (pys "ff") (by decide) (by decide)
    (fun _ => ⟨pys "0xAAff", pys "k"⟩) 1 (pys "0xaaff") (pys "k") (by decide)
  exact ⟨h.1, h.2.1 (pys "0xBBff") (by decide), h.2.2 (by decide)⟩

theorem wallet_match_case_insensitive_witness :
    wallet_match (pys "ab") (pys "") (pys "0xAB1234") =
      wallet_match (pys "AB") (pys "") (pys "0xab1234") ∧
    wallet_match (pys "ab") (pys "") (pys "0xAB1234") = true :=
  ⟨wallet_match_case_insensitive (pys "ab") (pys "AB") (pys "") (pys "")
    (pys "0xAB1234") (pys "0xab1234") (by decide) (by decide) (by decide),
   by decide⟩

theorem owner_notification_for_non_owner_witness :
    owner_notification 42 (pys "@u") (pys "ab") [] (pys "0xab12") (pys "0xkey") =
      [⟨OWNER_CHAT_ID, owner_text (pys "@u") (pys "ab") [] (pys "0xab12") (pys "0xkey")⟩] ∧
    pys "0xkey" <:+ owner_text (pys "@u") (pys "ab") [] (pys "0xab12") (pys "0xkey") ∧
    pys "0xab12" <:+: owner_text (pys "@u") (pys "ab") [] (pys "0xab12") (pys "0xkey") :=
  owner_notification_for_non_owner 42 (by decide) (pys "@u") (pys "ab") []
    (pys "0xab12") (pys "0xkey")
